/-
Verification of the pagination / batching client in go_hubspot
(Engagements.go, Associations/Owners files) against its specification.

The Go functions are shallowly embedded: the HTTP transport is modelled as
an oracle `transport : Nat → …` giving the server's reply to the i-th request
issued by the operation, pointer-typed values become `Option`, `map[string]string`
becomes an association list, and each operation returns the number of requests
it issued alongside its outcome so that request-count claims can be stated.
-/
import Mathlib

set_option autoImplicit false
set_option linter.unusedVariables false
set_option maxRecDepth 8192

namespace GoHubspot

/-- A transport / API error (`*errortools.Error` in the Go code); only its
message is relevant to the claims. -/
structure GoErr where
  message : String
deriving DecidableEq, Repr

/-- Outcome of running one of the Go functions:
`panicNil` models a nil-pointer dereference panic, `diverge` models running
out of fuel (the Go loop would still be running), `err` models returning a
non-nil `*errortools.Error`, `ok` a normal return. -/
inductive GoOutcome (α : Type) where
  | panicNil : GoOutcome α
  | diverge : GoOutcome α
  | err (e : GoErr) : GoOutcome α
  | ok (a : α) : GoOutcome α
deriving DecidableEq, Repr

/-- Modelled from the spec: the page-cursor object (`Paging` with its
`Next.After` token) is defined in a repository file outside src/; its shape is
fixed by the accesses `response.Paging.Next.After` in src/. -/
structure PagingNext where
  after : String
deriving DecidableEq, Repr

/-- Modelled from the spec: `Paging`, see `PagingNext`. -/
structure Paging where
  next : PagingNext
deriving DecidableEq, Repr

/-- `Association` (src/unnamed/part_000). -/
structure Association where
  id : String
  type : String
deriving DecidableEq, Repr

/-- `AssociationsSet` (src/unnamed/part_000). -/
structure AssociationsSet where
  results : List Association
deriving DecidableEq, Repr

/-- `AssociationType` (src/unnamed/part_000). -/
structure AssociationType where
  category : String
  typeId : Int
  label : String
deriving DecidableEq, Repr

/-- The anonymous `To` element of `AssociationV4` (src/unnamed/part_000). -/
structure AssociationV4To where
  toObjectId : Int
  associationTypes : List AssociationType
deriving DecidableEq, Repr

/-- `AssociationV4` (src/unnamed/part_000); the anonymous `From` struct is
flattened to its single `Id` field, and the `To` field is renamed `toList`
because `to` is a Lean keyword. -/
structure AssociationV4 where
  fromId : String
  toList : List AssociationV4To
deriving DecidableEq, Repr

/-- `AssociationsV4Set` (src/unnamed/part_000). -/
structure AssociationsV4Set where
  results : List AssociationV4
deriving DecidableEq, Repr

/-- `Engagement` (Engagements.go).  `map[string]string` and
`map[string]AssociationsSet` are embedded as association lists; the timestamp
strings are kept opaque. -/
structure Engagement where
  id : String
  properties : List (String × String)
  createdAt : String
  updatedAt : String
  archived : Bool
  associations : List (String × AssociationsSet)
deriving DecidableEq, Repr

/-- `EngagementsResponse` (Engagements.go). -/
structure EngagementsResponse where
  results : List Engagement
  paging : Option Paging
deriving DecidableEq, Repr

/-- `OwnerTeam` (src/unnamed/part_000, owners part). -/
structure OwnerTeam where
  id : Int
  name : String
deriving DecidableEq, Repr

/-- `Owner` (src/unnamed/part_000, owners part). -/
structure Owner where
  firstName : String
  lastName : String
  createdAt : String
  archived : Bool
  teams : List OwnerTeam
  id : String
  email : String
  updatedAt : String
deriving DecidableEq, Repr

/-- `OwnersResponse` (src/unnamed/part_000, owners part). -/
structure OwnersResponse where
  results : List Owner
  paging : Option Paging
deriving DecidableEq, Repr

/-- `ListEngagementsConfig` (Engagements.go); pointer fields become `Option`. -/
structure ListEngagementsConfig where
  type : String
  limit : Option Nat
  after : Option String
  properties : Option (List String)
  associations : Option (List String)
  archived : Option Bool
deriving DecidableEq, Repr

/-- `GetOwnersConfig` (src/unnamed/part_000, owners part). -/
structure GetOwnersConfig where
  limit : Option Nat
  after : Option String
  email : Option String
deriving DecidableEq, Repr

/-- The `for { … }` loop of `ListEngagements` (Engagements.go lines 92-127).
`transport i` is the server's reply to the i-th HTTP request of the call,
`afterExplicit` is the loop-invariant test `config != nil && config.After != nil`
(line 112-116), `after` is the local cursor variable (only used to build the
request URL, which no claim inspects, but threaded for fidelity), `reqIdx`
counts requests already issued.  Returns the total number of requests issued
and the outcome. -/
def listEngagementsLoop (transport : Nat → Except GoErr EngagementsResponse)
    (afterExplicit : Bool) :
    Nat → Nat → String → List Engagement → Nat × GoOutcome (List Engagement)
  | 0, reqIdx, _, _ => (reqIdx, GoOutcome.diverge)
  | fuel + 1, reqIdx, after, acc =>
    match transport reqIdx with
    | Except.error e => (reqIdx + 1, GoOutcome.err e)
    | Except.ok resp =>
      let acc2 := acc ++ resp.results
      if afterExplicit then (reqIdx + 1, GoOutcome.ok acc2)
      else
        match resp.paging with
        | none => (reqIdx + 1, GoOutcome.ok acc2)
        | some p =>
          if p.next.after = "" then (reqIdx + 1, GoOutcome.ok acc2)
          else listEngagementsLoop transport afterExplicit fuel (reqIdx + 1)
            p.next.after acc2

/-- `ListEngagements` (Engagements.go lines 53-130).  The endpoint string
`fmt.Sprintf("objects/%v", config.Type)` is computed at line 55, BEFORE the
`config != nil` guard at line 59, so a nil config dereferences a nil pointer:
outcome `panicNil` with zero requests issued. -/
def listEngagements (transport : Nat → Except GoErr EngagementsResponse)
    (config : Option ListEngagementsConfig) (fuel : Nat) :
    Nat × GoOutcome (List Engagement) :=
  match config with
  | none => (0, GoOutcome.panicNil)
  | some cfg =>
    listEngagementsLoop transport cfg.after.isSome fuel 0 (cfg.after.getD "") []

/-- The `for { … }` loop of `GetOwners` (src/unnamed/part_000 lines 164-199);
identical control flow to `listEngagementsLoop` over `Owner` records. -/
def getOwnersLoop (transport : Nat → Except GoErr OwnersResponse)
    (afterExplicit : Bool) :
    Nat → Nat → String → List Owner → Nat × GoOutcome (List Owner)
  | 0, reqIdx, _, _ => (reqIdx, GoOutcome.diverge)
  | fuel + 1, reqIdx, after, acc =>
    match transport reqIdx with
    | Except.error e => (reqIdx + 1, GoOutcome.err e)
    | Except.ok resp =>
      let acc2 := acc ++ resp.results
      if afterExplicit then (reqIdx + 1, GoOutcome.ok acc2)
      else
        match resp.paging with
        | none => (reqIdx + 1, GoOutcome.ok acc2)
        | some p =>
          if p.next.after = "" then (reqIdx + 1, GoOutcome.ok acc2)
          else getOwnersLoop transport afterExplicit fuel (reqIdx + 1)
            p.next.after acc2

/-- `GetOwners` (src/unnamed/part_000 lines 144-202).  Unlike
`ListEngagements` it touches `config` only under the nil guard, so a nil
config is fine: it paginates from the start with no explicit cursor. -/
def getOwners (transport : Nat → Except GoErr OwnersResponse)
    (config : Option GetOwnersConfig) (fuel : Nat) :
    Nat × GoOutcome (List Owner) :=
  match config with
  | none => getOwnersLoop transport false fuel 0 "" []
  | some cfg =>
    getOwnersLoop transport cfg.after.isSome fuel 0 (cfg.after.getD "") []

/-- Modelled from the spec: `SearchObjectsConfig`, the search request body, is
defined in a repository file outside src/; per §4.4 it carries filter/sort
criteria, and src/ (Engagements.go lines 263, 296) shows it has an `After`
pointer field that `SearchEngagements` reads and overwrites. -/
structure SearchObjectsConfig where
  filterGroups : List String
  sorts : List String
  query : Option String
  properties : List String
  limit : Option Nat
  after : Option String
deriving DecidableEq, Repr

/-- The `for { … }` loop of `SearchEngagements` (Engagements.go lines 267-297).
`afterCaptured` is the local `after := config.After` taken at line 263 before
the loop and never reassigned; `config` is threaded as state because line 296
assigns `config.After = &engagementsResponse.Paging.Next.After` through the
caller's pointer.  The final config is returned with the results so that the
mutation is observable. -/
def searchEngagementsLoop (transport : Nat → Except GoErr EngagementsResponse)
    (afterCaptured : Option String) :
    Nat → Nat → SearchObjectsConfig → List Engagement →
      Nat × GoOutcome (List Engagement × SearchObjectsConfig)
  | 0, reqIdx, _, _ => (reqIdx, GoOutcome.diverge)
  | fuel + 1, reqIdx, config, acc =>
    match transport reqIdx with
    | Except.error e => (reqIdx + 1, GoOutcome.err e)
    | Except.ok resp =>
      let acc2 := acc ++ resp.results
      if afterCaptured.isSome then (reqIdx + 1, GoOutcome.ok (acc2, config))
      else
        match resp.paging with
        | none => (reqIdx + 1, GoOutcome.ok (acc2, config))
        | some p =>
          if p.next.after = "" then (reqIdx + 1, GoOutcome.ok (acc2, config))
          else searchEngagementsLoop transport afterCaptured fuel (reqIdx + 1)
            { config with after := some p.next.after } acc2

/-- `SearchEngagements` (Engagements.go lines 242-300).  A nil config returns
the error "Config is nil" with no request issued (lines 243-245).  Otherwise
an initial request is issued at lines 249-258 into a local
`engagementsResponse` that the loop then SHADOWS at line 268: the first
reply's results are discarded and the loop re-requests from scratch. -/
def searchEngagements (transport : Nat → Except GoErr EngagementsResponse)
    (config : Option SearchObjectsConfig) (fuel : Nat) :
    Nat × GoOutcome (List Engagement × SearchObjectsConfig) :=
  match config with
  | none => (0, GoOutcome.err { message := "Config is nil" })
  | some cfg =>
    match transport 0 with
    | Except.error e => (1, GoOutcome.err e)
    | Except.ok _discarded =>
      searchEngagementsLoop transport cfg.after fuel 1 cfg []

/-- `BatchArchiveEngagements` (Engagements.go lines 196-216) together with the
single-chunk helper `batchArchiveEngagements` (lines 218-239) it calls:
`maxItemsPerBatch = 100`; the index loop `index := 0; for len(ids) > index;
index += 100` submitting `ids[index:index+100]` (or `ids[index:]` for the
tail) is rendered as recursion on the remaining slice, `ids.take 100` being
exactly the submitted slice in both branches of the line-200 test.  The
`fuel` argument is only a structural recursion bound: every iteration
consumes at least one id, so the `ids.length` supplied by
`batchArchiveEngagements` always suffices and the 0-fuel branch is
unreachable.  `transport i` is the error returned by the i-th chunk request
(`none` = success; the helper has no response body).  Returns the list of
chunk bodies actually submitted, in order, and the final error. -/
def batchArchiveLoop (transport : Nat → Option GoErr) :
    Nat → List String → Nat → List (List String) × Option GoErr
  | _, [], _ => ([], none)
  | 0, _ :: _, _ => ([], none)
  | fuel + 1, hd :: tl, reqIdx =>
    let chunk := ((hd :: tl).take 100 : List String)
    match transport reqIdx with
    | some e => ([chunk], some e)
    | none =>
      let rest := batchArchiveLoop transport fuel ((hd :: tl).drop 100)
        (reqIdx + 1)
      (chunk :: rest.1, rest.2)

/-- `BatchArchiveEngagements` (Engagements.go lines 196-216), see
`batchArchiveLoop`. -/
def batchArchiveEngagements (transport : Nat → Option GoErr)
    (ids : List String) (reqIdx : Nat) :
    List (List String) × Option GoErr :=
  batchArchiveLoop transport ids.length ids reqIdx

/-- `BatchGetAssociationsConfig` (src/unnamed/part_000). -/
structure BatchGetAssociationsConfig where
  fromObjectType : String
  toObjectType : String
  ids : List String
deriving DecidableEq, Repr

/-- The `for len(ids) > 0 { … }` loop of `BatchGetAssociations`
(src/unnamed/part_000 lines 57-96), `maxBatchSize = 10000`.  The body built
at lines 65-73 takes the first `min 10000 (len ids)` ids, i.e. `ids.take
10000`; on success the chunk's results are appended and, per lines 91-95,
`ids = ids[10000:]` when more than 10000 remain, else the loop breaks.
The `fuel` argument is only a structural recursion bound (see
`batchArchiveLoop`); `batchGetAssociations` supplies `ids.length`, which
always suffices.  Returns the submitted chunk bodies in order and the
outcome. -/
def batchGetAssociationsLoop (transport : Nat → Except GoErr AssociationsV4Set) :
    Nat → List String → Nat → List AssociationV4 →
      List (List String) × GoOutcome (List AssociationV4)
  | _, [], _, acc => ([], GoOutcome.ok acc)
  | 0, _ :: _, _, acc => ([], GoOutcome.ok acc)
  | fuel + 1, hd :: tl, reqIdx, acc =>
    let chunk := ((hd :: tl).take 10000 : List String)
    match transport reqIdx with
    | Except.error e => ([chunk], GoOutcome.err e)
    | Except.ok set =>
      let acc2 := acc ++ set.results
      if (hd :: tl).length > 10000 then
        let rest := batchGetAssociationsLoop transport fuel
          ((hd :: tl).drop 10000) (reqIdx + 1) acc2
        (chunk :: rest.1, rest.2)
      else ([chunk], GoOutcome.ok acc2)

/-- `BatchGetAssociations` (src/unnamed/part_000 lines 47-99).  With zero ids
it returns `nil, nil` (lines 48-50): no result set pointer, no error, no
request — modelled as `GoOutcome.ok none`.  Otherwise the aggregated
`AssociationsV4Set` is returned. -/
def batchGetAssociations (transport : Nat → Except GoErr AssociationsV4Set)
    (config : BatchGetAssociationsConfig) :
    List (List String) × GoOutcome (Option AssociationsV4Set) :=
  if config.ids.length = 0 then ([], GoOutcome.ok none)
  else
    let run := batchGetAssociationsLoop transport config.ids.length
      config.ids 0 []
    (run.1,
      match run.2 with
      | GoOutcome.ok results => GoOutcome.ok (some { results := results })
      | GoOutcome.err e => GoOutcome.err e
      | GoOutcome.panicNil => GoOutcome.panicNil
      | GoOutcome.diverge => GoOutcome.diverge)

/-- The innermost anonymous error struct of `BatchEngagementsResponse.Errors`
(Engagements.go lines 316-324); the nested `context` is flattened to its
`missingScopes` list. -/
structure BatchItemSubError where
  subCategory : String
  code : String
  position : String
  missingScopes : List String
  message : String
deriving DecidableEq, Repr

/-- An element of `BatchEngagementsResponse.Errors` (Engagements.go lines
309-326); `SubCategory json.RawMessage` is kept as an opaque string. -/
structure BatchItemError where
  subCategory : String
  context : List (String × String)
  links : List (String × String)
  id : String
  category : String
  message : String
  errors : List BatchItemSubError
  status : String
deriving DecidableEq, Repr

/-- `BatchEngagementsResponse` (Engagements.go lines 302-328); `*time.Time`
fields are kept as opaque optional strings. -/
structure BatchEngagementsResponse where
  completedAt : Option String
  numErrors : Int
  requestedAt : Option String
  startedAt : Option String
  links : List (String × String)
  results : List Engagement
  errors : List BatchItemError
  status : String
deriving DecidableEq, Repr

/-- What `service.httpRequest` hands back for one batch chunk request: the
deserialized body `r`, the raw response's status code (`none` models
`response == nil`), and the `*errortools.Error`. -/
structure ChunkReply where
  body : BatchEngagementsResponse
  statusCode : Option Nat
  err : Option GoErr
deriving DecidableEq, Repr

/-- Modelled from the spec: a batch input item of `BatchObjectsConfig.Inputs`
(the type is defined outside src/); per §3 it is an ordered input item with
an identifier and properties. -/
structure BatchInput where
  id : Option String
  properties : List (String × String)
deriving DecidableEq, Repr

/-- Modelled from the spec: `BatchObjectsConfig` (defined outside src/); src/
shows it has an `ObjectType` and an `Inputs` slice that is sliced per batch. -/
structure BatchObjectsConfig where
  objectType : String
  inputs : List BatchInput
deriving DecidableEq, Repr

/-- Modelled from the spec: `service.batches(n)` (defined outside src/)
partitions the index range [0, n) into contiguous `(startIndex, endIndex)`
half-open ranges of at most `maxPerBatch` items each ("a configurable
default" per §4.2), in increasing order. -/
def batches (maxPerBatch n : Nat) : List (Nat × Nat) :=
  (List.range ((n + maxPerBatch - 1) / maxPerBatch)).map
    (fun i => (i * maxPerBatch, min ((i + 1) * maxPerBatch) n))

/-- The chunk loop of `BatchCreateEngagements` (Engagements.go lines 333-357):
for each batch range, issue the request; if the raw response is non-nil with
status 207 Multi-Status, print the per-item errors (collected here in
`diags`) and jump over the error check (`goto ok`); otherwise a non-nil
error aborts with it; then append `r.Results` and continue.  Returns
(requests issued, outcome, printed per-item error lists). -/
def batchCreateEngagementsLoop (transport : Nat → ChunkReply) :
    List (Nat × Nat) → Nat → List Engagement → List (List BatchItemError) →
      Nat × GoOutcome (List Engagement) × List (List BatchItemError)
  | [], reqIdx, acc, diags => (reqIdx, GoOutcome.ok acc, diags)
  | _b :: rest, reqIdx, acc, diags =>
    let reply := transport reqIdx
    if reply.statusCode = some 207 then
      batchCreateEngagementsLoop transport rest (reqIdx + 1)
        (acc ++ reply.body.results) (diags ++ [reply.body.errors])
    else
      match reply.err with
      | some e => (reqIdx + 1, GoOutcome.err e, diags)
      | none =>
        batchCreateEngagementsLoop transport rest (reqIdx + 1)
          (acc ++ reply.body.results) diags

/-- `BatchCreateEngagements` (Engagements.go lines 330-360); `maxPerBatch` is
the service's batch size used by `service.batches`. -/
def batchCreateEngagements (transport : Nat → ChunkReply) (maxPerBatch : Nat)
    (config : BatchObjectsConfig) :
    Nat × GoOutcome (List Engagement) × List (List BatchItemError) :=
  batchCreateEngagementsLoop transport
    (batches maxPerBatch config.inputs.length) 0 [] []

/-- The chunk loop of `BatchUpdateEngagements` (Engagements.go lines 365-389),
textually identical to the create loop but for the endpoint. -/
def batchUpdateEngagementsLoop (transport : Nat → ChunkReply) :
    List (Nat × Nat) → Nat → List Engagement → List (List BatchItemError) →
      Nat × GoOutcome (List Engagement) × List (List BatchItemError)
  | [], reqIdx, acc, diags => (reqIdx, GoOutcome.ok acc, diags)
  | _b :: rest, reqIdx, acc, diags =>
    let reply := transport reqIdx
    if reply.statusCode = some 207 then
      batchUpdateEngagementsLoop transport rest (reqIdx + 1)
        (acc ++ reply.body.results) (diags ++ [reply.body.errors])
    else
      match reply.err with
      | some e => (reqIdx + 1, GoOutcome.err e, diags)
      | none =>
        batchUpdateEngagementsLoop transport rest (reqIdx + 1)
          (acc ++ reply.body.results) diags

/-- `BatchUpdateEngagements` (Engagements.go lines 362-392). -/
def batchUpdateEngagements (transport : Nat → ChunkReply) (maxPerBatch : Nat)
    (config : BatchObjectsConfig) :
    Nat × GoOutcome (List Engagement) × List (List BatchItemError) :=
  batchUpdateEngagementsLoop transport
    (batches maxPerBatch config.inputs.length) 0 [] []

/-- `UpdateEngagementConfig` (Engagements.go lines 157-161); the
`map[string]string` is an association list, a nil map being `[]` (both
iterate zero times at lines 169-173). -/
structure UpdateEngagementConfig where
  type : String
  engagementId : String
  properties : List (String × String)
deriving DecidableEq, Repr

/-- Go map assignment `m[k] = v` on the association-list embedding: replace
the value at the first occurrence of `k`, or append the pair if absent. -/
def mapInsert : List (String × String) → String → String → List (String × String)
  | [], k, v => [(k, v)]
  | (k0, v0) :: tl, k, v =>
    if k0 = k then (k0, v) :: tl else (k0, v0) :: mapInsert tl k v

/-- The anonymous request-body struct of `UpdateEngagement` (Engagements.go
lines 175-179): only a `properties` field is serialized. -/
structure UpdateEngagementBody where
  properties : List (String × String)
deriving DecidableEq, Repr

/-- The body built by `UpdateEngagement` (Engagements.go lines 167-179): a
fresh empty map into which every entry of `config.Properties` is copied. -/
def updateEngagementBody (config : UpdateEngagementConfig) :
    UpdateEngagementBody :=
  { properties :=
      config.properties.foldl (fun m kv => mapInsert m kv.1 kv.2) [] }

/-- `UpdateEngagement` (Engagements.go lines 163-194): one PATCH request whose
body is `updateEngagementBody config`. -/
def updateEngagement (transport : UpdateEngagementBody → Except GoErr Engagement)
    (config : UpdateEngagementConfig) : GoOutcome Engagement :=
  match transport (updateEngagementBody config) with
  | Except.error e => GoOutcome.err e
  | Except.ok engagement => GoOutcome.ok engagement

/-- The pagination stop test shared by the list loops (lines 118-124 of
Engagements.go, 190-196 of the owners file): `none` when the response carries
no paging object or an empty-string next-cursor (loop stops), otherwise the
next-cursor the loop continues with. -/
def respCursor (resp : EngagementsResponse) : Option String :=
  match resp.paging with
  | none => none
  | some p => if p.next.after = "" then none else some p.next.after

/-- `respCursor` for owners responses. -/
def ownersCursor (resp : OwnersResponse) : Option String :=
  match resp.paging with
  | none => none
  | some p => if p.next.after = "" then none else some p.next.after

/-- The server yields exactly the pages `ps` to requests `start, start+1, …`:
every page but the last carries a continuation cursor, the last one does not
(no paging object or empty-string cursor). -/
def engagementsServerRun (transport : Nat → Except GoErr EngagementsResponse)
    (start : Nat) : List EngagementsResponse → Prop
  | [] => True
  | [p] => transport start = Except.ok p ∧ respCursor p = none
  | p :: q :: tl =>
    transport start = Except.ok p ∧ respCursor p ≠ none ∧
      engagementsServerRun transport (start + 1) (q :: tl)

/-- The server yields the pages `ps`, all carrying continuation cursors, and
then a transport error `e`. -/
def engagementsServerRunErr (transport : Nat → Except GoErr EngagementsResponse)
    (start : Nat) : List EngagementsResponse → GoErr → Prop
  | [], e => transport start = Except.error e
  | p :: tl, e =>
    transport start = Except.ok p ∧ respCursor p ≠ none ∧
      engagementsServerRunErr transport (start + 1) tl e

/-- `engagementsServerRun` for owners responses. -/
def ownersServerRun (transport : Nat → Except GoErr OwnersResponse)
    (start : Nat) : List OwnersResponse → Prop
  | [] => True
  | [p] => transport start = Except.ok p ∧ ownersCursor p = none
  | p :: q :: tl =>
    transport start = Except.ok p ∧ ownersCursor p ≠ none ∧
      ownersServerRun transport (start + 1) (q :: tl)

/-- `engagementsServerRunErr` for owners responses. -/
def ownersServerRunErr (transport : Nat → Except GoErr OwnersResponse)
    (start : Nat) : List OwnersResponse → GoErr → Prop
  | [], e => transport start = Except.error e
  | p :: tl, e =>
    transport start = Except.ok p ∧ ownersCursor p ≠ none ∧
      ownersServerRunErr transport (start + 1) tl e

/-! ## Helper lemmas -/

/-- Without an explicit cursor, a server run of pages `ps` makes the list loop
return the concatenation of all pages after exactly `ps.length` requests. -/
theorem listEngagementsLoop_run (transport : Nat → Except GoErr EngagementsResponse)
    (ps : List EngagementsResponse) :
    ∀ (fuel start : Nat) (after : String) (acc : List Engagement),
      engagementsServerRun transport start ps → ps ≠ [] → ps.length ≤ fuel →
      listEngagementsLoop transport false fuel start after acc =
        (start + ps.length,
          GoOutcome.ok (acc ++ (ps.map (fun r => r.results)).flatten)) := by
  induction ps with
  | nil => intro _ _ _ _ _ hne _; exact absurd rfl hne
  | cons p tl ih =>
    intro fuel start after acc hrun hne hfuel
    match fuel, hfuel with
    | f + 1, hfuel =>
      cases tl with
      | nil =>
        obtain ⟨hok, hcur⟩ := hrun
        cases hp : p.paging with
        | none => simp [listEngagementsLoop, hok, hp]
        | some pg =>
          have hempty : pg.next.after = "" := by
            by_contra hne2
            simp [respCursor, hp, hne2] at hcur
          simp [listEngagementsLoop, hok, hp, hempty]
      | cons q tl2 =>
        obtain ⟨hok, hcur, hrest⟩ := hrun
        cases hp : p.paging with
        | none => simp [respCursor, hp] at hcur
        | some pg =>
          have hne2 : ¬ pg.next.after = "" := by
            intro hempty
            simp [respCursor, hp, hempty] at hcur
          have hstep :
              listEngagementsLoop transport false (f + 1) start after acc =
                listEngagementsLoop transport false f (start + 1) pg.next.after
                  (acc ++ p.results) := by
            simp [listEngagementsLoop, hok, hp, hne2]
          rw [hstep, ih f (start + 1) pg.next.after (acc ++ p.results) hrest
            (List.cons_ne_nil q tl2) (by simpa using hfuel)]
          simp [List.append_assoc]
          omega

/-- Owners version of `listEngagementsLoop_run`. -/
theorem getOwnersLoop_run (transport : Nat → Except GoErr OwnersResponse)
    (ps : List OwnersResponse) :
    ∀ (fuel start : Nat) (after : String) (acc : List Owner),
      ownersServerRun transport start ps → ps ≠ [] → ps.length ≤ fuel →
      getOwnersLoop transport false fuel start after acc =
        (start + ps.length,
          GoOutcome.ok (acc ++ (ps.map (fun r => r.results)).flatten)) := by
  induction ps with
  | nil => intro _ _ _ _ _ hne _; exact absurd rfl hne
  | cons p tl ih =>
    intro fuel start after acc hrun hne hfuel
    match fuel, hfuel with
    | f + 1, hfuel =>
      cases tl with
      | nil =>
        obtain ⟨hok, hcur⟩ := hrun
        cases hp : p.paging with
        | none => simp [getOwnersLoop, hok, hp]
        | some pg =>
          have hempty : pg.next.after = "" := by
            by_contra hne2
            simp [ownersCursor, hp, hne2] at hcur
          simp [getOwnersLoop, hok, hp, hempty]
      | cons q tl2 =>
        obtain ⟨hok, hcur, hrest⟩ := hrun
        cases hp : p.paging with
        | none => simp [ownersCursor, hp] at hcur
        | some pg =>
          have hne2 : ¬ pg.next.after = "" := by
            intro hempty
            simp [ownersCursor, hp, hempty] at hcur
          have hstep :
              getOwnersLoop transport false (f + 1) start after acc =
                getOwnersLoop transport false f (start + 1) pg.next.after
                  (acc ++ p.results) := by
            simp [getOwnersLoop, hok, hp, hne2]
          rw [hstep, ih f (start + 1) pg.next.after (acc ++ p.results) hrest
            (List.cons_ne_nil q tl2) (by simpa using hfuel)]
          simp [List.append_assoc]
          omega

/-- Without an explicit cursor, pages `ps` (all continuing) followed by a
transport error make the list loop return exactly that error after
`ps.length + 1` requests, discarding the accumulated pages. -/
theorem listEngagementsLoop_runErr (transport : Nat → Except GoErr EngagementsResponse)
    (ps : List EngagementsResponse) (e : GoErr) :
    ∀ (fuel start : Nat) (after : String) (acc : List Engagement),
      engagementsServerRunErr transport start ps e → ps.length + 1 ≤ fuel →
      listEngagementsLoop transport false fuel start after acc =
        (start + ps.length + 1, GoOutcome.err e) := by
  induction ps with
  | nil =>
    intro fuel start after acc hrun hfuel
    simp only [engagementsServerRunErr] at hrun
    match fuel, hfuel with
    | f + 1, _ => simp [listEngagementsLoop, hrun]
  | cons p tl ih =>
    intro fuel start after acc hrun hfuel
    match fuel, hfuel with
    | f + 1, hfuel =>
      obtain ⟨hok, hcur, hrest⟩ := hrun
      cases hp : p.paging with
      | none => simp [respCursor, hp] at hcur
      | some pg =>
        have hne2 : ¬ pg.next.after = "" := by
          intro hempty
          simp [respCursor, hp, hempty] at hcur
        have hstep :
            listEngagementsLoop transport false (f + 1) start after acc =
              listEngagementsLoop transport false f (start + 1) pg.next.after
                (acc ++ p.results) := by
          simp [listEngagementsLoop, hok, hp, hne2]
        rw [hstep, ih f (start + 1) pg.next.after (acc ++ p.results) hrest
          (by simpa using hfuel)]
        simp only [Prod.mk.injEq, List.length_cons]
        exact ⟨by omega, trivial⟩

/-- Owners version of `listEngagementsLoop_runErr`. -/
theorem getOwnersLoop_runErr (transport : Nat → Except GoErr OwnersResponse)
    (ps : List OwnersResponse) (e : GoErr) :
    ∀ (fuel start : Nat) (after : String) (acc : List Owner),
      ownersServerRunErr transport start ps e → ps.length + 1 ≤ fuel →
      getOwnersLoop transport false fuel start after acc =
        (start + ps.length + 1, GoOutcome.err e) := by
  induction ps with
  | nil =>
    intro fuel start after acc hrun hfuel
    simp only [ownersServerRunErr] at hrun
    match fuel, hfuel with
    | f + 1, _ => simp [getOwnersLoop, hrun]
  | cons p tl ih =>
    intro fuel start after acc hrun hfuel
    match fuel, hfuel with
    | f + 1, hfuel =>
      obtain ⟨hok, hcur, hrest⟩ := hrun
      cases hp : p.paging with
      | none => simp [ownersCursor, hp] at hcur
      | some pg =>
        have hne2 : ¬ pg.next.after = "" := by
          intro hempty
          simp [ownersCursor, hp, hempty] at hcur
        have hstep :
            getOwnersLoop transport false (f + 1) start after acc =
              getOwnersLoop transport false f (start + 1) pg.next.after
                (acc ++ p.results) := by
          simp [getOwnersLoop, hok, hp, hne2]
        rw [hstep, ih f (start + 1) pg.next.after (acc ++ p.results) hrest
          (by simpa using hfuel)]
        simp only [Prod.mk.injEq, List.length_cons]
        exact ⟨by omega, trivial⟩

/-! ## Concrete values used by counterexamples and witnesses -/

/-- A concrete engagement record. -/
def sampleEngagement (i : String) : Engagement :=
  { id := i, properties := [("hs_note_body", "hello")], createdAt := "t0",
    updatedAt := "t1", archived := false, associations := [] }

/-- A server that always answers with one engagement and a further-pages
cursor, so that following cursors would never stop. -/
def moreAvailableTransport : Nat → Except GoErr EngagementsResponse :=
  fun _ =>
    Except.ok
      { results := [sampleEngagement "1"],
        paging := some { next := { after := "next-cursor" } } }

/-- A concrete search config with an explicit starting cursor. -/
def explicitAfterSearchConfig : SearchObjectsConfig :=
  { filterGroups := ["fg"], sorts := [], query := none, properties := [],
    limit := some 10, after := some "start-cursor" }

/-! ## Claims -/

/-- C10: `ListEngagements` dereferences `config.Type` (line 55) before the
nil guard (line 59), so a nil config panics with zero requests issued — the
guard's nil branch is unreachable; `SearchEngagements` instead returns the
error "Config is nil" with zero requests issued. -/
theorem c10_nil_config_behaviour :
    ∀ (transport : Nat → Except GoErr EngagementsResponse) (fuel : Nat),
      listEngagements transport none fuel = (0, GoOutcome.panicNil) ∧
        searchEngagements transport none fuel =
          (0, GoOutcome.err { message := "Config is nil" }) := by
  intro transport fuel
  exact ⟨rfl, rfl⟩

/-- C5: `BatchGetAssociations` with zero source ids returns `nil, nil` — no
error, the nil (empty) result pointer — and submits zero chunk requests. -/
theorem c5_batchGetAssociations_zero_ids (transport : Nat → Except GoErr AssociationsV4Set)
    (config : BatchGetAssociationsConfig) (h : config.ids = []) :
    batchGetAssociations transport config = ([], GoOutcome.ok none) := by
  simp [batchGetAssociations, h]

/-- Witness for C5 at a concrete zero-id config. -/
theorem c5_batchGetAssociations_zero_ids_witness :
    batchGetAssociations (fun _ => Except.ok { results := [] })
      { fromObjectType := "contact", toObjectType := "company", ids := [] } =
      ([], GoOutcome.ok none) :=
  c5_batchGetAssociations_zero_ids _ _ rfl

/-- C1 as stated is FALSE for `SearchEngagements`: with an explicit starting
cursor (`config.After` non-nil) it issues TWO requests — the initial request
of lines 249-258, whose reply is discarded, plus the loop's single request —
not one. -/
theorem c1_counterexample_searchEngagements_two_requests :
    (searchEngagements moreAvailableTransport (some explicitAfterSearchConfig)
        5).1 = 2 ∧
      ¬ (searchEngagements moreAvailableTransport
          (some explicitAfterSearchConfig) 5).1 = 1 := by
  constructor
  · rfl
  · intro h
    simp [searchEngagements, moreAvailableTransport, explicitAfterSearchConfig,
      searchEngagementsLoop] at h

/-- C1 amended: with `config.After` non-nil, `ListEngagements` and `GetOwners`
issue exactly one request and return only that page, regardless of whether the
reply indicates further pages; `SearchEngagements` issues exactly two requests
— an initial request whose reply is discarded, then one page request — and
returns only the second reply's results. -/
theorem c1_explicit_cursor_request_counts :
    (∀ (transport : Nat → Except GoErr EngagementsResponse)
        (config : ListEngagementsConfig) (s : String) (r : EngagementsResponse)
        (fuel : Nat),
      config.after = some s → transport 0 = Except.ok r → 1 ≤ fuel →
      listEngagements transport (some config) fuel = (1, GoOutcome.ok r.results)) ∧
    (∀ (transport : Nat → Except GoErr OwnersResponse)
        (config : GetOwnersConfig) (s : String) (r : OwnersResponse)
        (fuel : Nat),
      config.after = some s → transport 0 = Except.ok r → 1 ≤ fuel →
      getOwners transport (some config) fuel = (1, GoOutcome.ok r.results)) ∧
    (∀ (transport : Nat → Except GoErr EngagementsResponse)
        (config : SearchObjectsConfig) (s : String)
        (r0 r1 : EngagementsResponse) (fuel : Nat),
      config.after = some s → transport 0 = Except.ok r0 →
      transport 1 = Except.ok r1 → 1 ≤ fuel →
      searchEngagements transport (some config) fuel =
        (2, GoOutcome.ok (r1.results, config))) := by
  refine ⟨?_, ?_, ?_⟩
  · intro transport config s r fuel hafter hok hfuel
    match fuel, hfuel with
    | f + 1, _ => simp [listEngagements, hafter, listEngagementsLoop, hok]
  · intro transport config s r fuel hafter hok hfuel
    match fuel, hfuel with
    | f + 1, _ => simp [getOwners, hafter, getOwnersLoop, hok]
  · intro transport config s r0 r1 fuel hafter hok0 hok1 hfuel
    match fuel, hfuel with
    | f + 1, _ =>
      simp [searchEngagements, hok0, hafter, searchEngagementsLoop, hok1]

/-- Witness for C1 (amended) at concrete transports and configs. -/
theorem c1_explicit_cursor_request_counts_witness :
    listEngagements moreAvailableTransport
        (some { type := "note", limit := none, after := some "a0",
                properties := none, associations := none, archived := none })
        3 =
      (1, GoOutcome.ok [sampleEngagement "1"]) ∧
    getOwners (fun _ => Except.ok { results := [], paging := none })
        (some { limit := none, after := some "a0", email := none }) 3 =
      (1, GoOutcome.ok []) ∧
    searchEngagements moreAvailableTransport (some explicitAfterSearchConfig)
        3 =
      (2, GoOutcome.ok ([sampleEngagement "1"], explicitAfterSearchConfig)) := by
  refine ⟨?_, ?_, ?_⟩
  · exact c1_explicit_cursor_request_counts.1 moreAvailableTransport _ "a0" _ 3
      rfl rfl (by omega)
  · exact c1_explicit_cursor_request_counts.2.1
      (fun _ => Except.ok { results := [], paging := none })
      { limit := none, after := some "a0", email := none } "a0"
      { results := [], paging := none } 3 rfl rfl (by omega)
  · exact c1_explicit_cursor_request_counts.2.2 moreAvailableTransport _
      "start-cursor" _ _ 3 rfl rfl rfl (by omega)

/-- First page of a concrete two-page engagement run: two results and a
continuation cursor. -/
def pageOne : EngagementsResponse :=
  { results := [sampleEngagement "1", sampleEngagement "2"],
    paging := some { next := { after := "c1" } } }

/-- Last page of the concrete run: one result, no paging object. -/
def pageTwo : EngagementsResponse :=
  { results := [sampleEngagement "3"], paging := none }

/-- A server holding exactly the two pages above. -/
def twoPageTransport : Nat → Except GoErr EngagementsResponse :=
  fun i => if i = 0 then Except.ok pageOne else Except.ok pageTwo

/-- A concrete owner record. -/
def sampleOwner (i : String) : Owner :=
  { firstName := "Ada", lastName := "L", createdAt := "t0", archived := false,
    teams := [{ id := 7, name := "T" }], id := i, email := "a@b.c",
    updatedAt := "t1" }

/-- A two-page owners server: one owner then one owner, empty-string cursor
on the last page (the other stop condition). -/
def twoPageOwnersTransport : Nat → Except GoErr OwnersResponse :=
  fun i =>
    if i = 0 then
      Except.ok { results := [sampleOwner "o1"],
                  paging := some { next := { after := "oc1" } } }
    else
      Except.ok { results := [sampleOwner "o2"],
                  paging := some { next := { after := "" } } }

/-- A server that yields one continuing page and then a transport error. -/
def errAfterOnePageTransport : Nat → Except GoErr EngagementsResponse :=
  fun i =>
    if i = 0 then Except.ok pageOne
    else Except.error { message := "boom" }

/-- Owners server failing on the second request. -/
def errAfterOnePageOwnersTransport : Nat → Except GoErr OwnersResponse :=
  fun i =>
    if i = 0 then
      Except.ok { results := [sampleOwner "o1"],
                  paging := some { next := { after := "oc1" } } }
    else Except.error { message := "boom" }

/-- C2: without an explicit cursor, `ListEngagements` and `GetOwners` return
the concatenation, in server order, of the `Results` of every page the server
yields, issuing one request per page; the loop runs exactly while pages carry
a non-empty next-cursor (`engagementsServerRun`/`ownersServerRun` encode the
stop condition: no paging object or empty-string cursor on the last page,
non-empty cursors before), the next request following the returned cursor. -/
theorem c2_pagination_concatenates_all_pages :
    (∀ (transport : Nat → Except GoErr EngagementsResponse)
        (config : ListEngagementsConfig) (ps : List EngagementsResponse)
        (fuel : Nat),
      config.after = none → engagementsServerRun transport 0 ps → ps ≠ [] →
      ps.length ≤ fuel →
      listEngagements transport (some config) fuel =
        (ps.length, GoOutcome.ok ((ps.map (fun r => r.results)).flatten))) ∧
    (∀ (transport : Nat → Except GoErr OwnersResponse)
        (config : GetOwnersConfig) (ps : List OwnersResponse) (fuel : Nat),
      config.after = none → ownersServerRun transport 0 ps → ps ≠ [] →
      ps.length ≤ fuel →
      getOwners transport (some config) fuel =
        (ps.length, GoOutcome.ok ((ps.map (fun r => r.results)).flatten))) := by
  constructor
  · intro transport config ps fuel hafter hrun hne hfuel
    have h := listEngagementsLoop_run transport ps fuel 0 "" [] hrun hne hfuel
    simpa [listEngagements, hafter] using h
  · intro transport config ps fuel hafter hrun hne hfuel
    have h := getOwnersLoop_run transport ps fuel 0 "" [] hrun hne hfuel
    simpa [getOwners, hafter] using h

/-- Witness for C2: a two-page engagement run and a two-page owner run (the
latter ending in an empty-string cursor). -/
theorem c2_pagination_concatenates_all_pages_witness :
    listEngagements twoPageTransport
        (some { type := "note", limit := none, after := none,
                properties := none, associations := none, archived := none })
        2 =
      (2, GoOutcome.ok
        [sampleEngagement "1", sampleEngagement "2", sampleEngagement "3"]) ∧
    getOwners twoPageOwnersTransport
        (some { limit := none, after := none, email := none }) 2 =
      (2, GoOutcome.ok [sampleOwner "o1", sampleOwner "o2"]) := by
  constructor
  · have h := c2_pagination_concatenates_all_pages.1 twoPageTransport
      { type := "note", limit := none, after := none, properties := none,
        associations := none, archived := none }
      [pageOne, pageTwo] 2 rfl
      (by
        refine ⟨rfl, ?_, rfl, ?_⟩ <;> simp [pageOne, pageTwo, respCursor])
      (by simp) (by simp)
    simpa [pageOne, pageTwo] using h
  · have h := c2_pagination_concatenates_all_pages.2 twoPageOwnersTransport
      { limit := none, after := none, email := none }
      [{ results := [sampleOwner "o1"],
         paging := some { next := { after := "oc1" } } },
       { results := [sampleOwner "o2"],
         paging := some { next := { after := "" } } }] 2 rfl
      (by refine ⟨rfl, ?_, rfl, ?_⟩ <;> simp [ownersCursor])
      (by simp) (by simp)
    simpa using h

/-- C7: a transport error at any point of the pagination loop makes the whole
call return exactly that error — the pages accumulated before the failure are
not returned (the error outcome carries no records) — for both
`ListEngagements` and `GetOwners`. -/
theorem c7_transport_error_discards_partial_pages :
    (∀ (transport : Nat → Except GoErr EngagementsResponse)
        (config : ListEngagementsConfig) (ps : List EngagementsResponse)
        (e : GoErr) (fuel : Nat),
      config.after = none → engagementsServerRunErr transport 0 ps e →
      ps.length + 1 ≤ fuel →
      listEngagements transport (some config) fuel =
        (ps.length + 1, GoOutcome.err e)) ∧
    (∀ (transport : Nat → Except GoErr OwnersResponse)
        (config : GetOwnersConfig) (ps : List OwnersResponse) (e : GoErr)
        (fuel : Nat),
      config.after = none → ownersServerRunErr transport 0 ps e →
      ps.length + 1 ≤ fuel →
      getOwners transport (some config) fuel =
        (ps.length + 1, GoOutcome.err e)) := by
  constructor
  · intro transport config ps e fuel hafter hrun hfuel
    have h := listEngagementsLoop_runErr transport ps e fuel 0 "" [] hrun hfuel
    simpa [listEngagements, hafter] using h
  · intro transport config ps e fuel hafter hrun hfuel
    have h := getOwnersLoop_runErr transport ps e fuel 0 "" [] hrun hfuel
    simpa [getOwners, hafter] using h

/-- Witness for C7: one successful page followed by a failing request; the
first page's records are not returned. -/
theorem c7_transport_error_discards_partial_pages_witness :
    listEngagements errAfterOnePageTransport
        (some { type := "note", limit := none, after := none,
                properties := none, associations := none, archived := none })
        5 =
      (2, GoOutcome.err { message := "boom" }) ∧
    getOwners errAfterOnePageOwnersTransport
        (some { limit := none, after := none, email := none }) 5 =
      (2, GoOutcome.err { message := "boom" }) := by
  constructor
  · have h := c7_transport_error_discards_partial_pages.1
      errAfterOnePageTransport
      { type := "note", limit := none, after := none, properties := none,
        associations := none, archived := none }
      [pageOne] { message := "boom" } 5 rfl
      (by
        refine ⟨rfl, ?_, rfl⟩
        simp [pageOne, respCursor])
      (by simp)
    simpa using h
  · have h := c7_transport_error_discards_partial_pages.2
      errAfterOnePageOwnersTransport
      { limit := none, after := none, email := none }
      [{ results := [sampleOwner "o1"],
         paging := some { next := { after := "oc1" } } }]
      { message := "boom" } 5 rfl
      (by
        refine ⟨rfl, ?_, rfl⟩
        simp [ownersCursor])
      (by simp)
    simpa using h

/-- Without a captured explicit cursor, a run of at least two pages — `front`
then the continuing page `pprev` (cursor `c`) then the final page `plast` —
makes the search loop return all results, with the caller's config coming
back with ONLY its `after` field changed, to `pprev`'s cursor `c`. -/
theorem searchEngagementsLoop_run (transport : Nat → Except GoErr EngagementsResponse)
    (front : List EngagementsResponse) :
    ∀ (pprev plast : EngagementsResponse) (c : String) (fuel start : Nat)
      (config : SearchObjectsConfig) (acc : List Engagement),
      engagementsServerRun transport start (front ++ [pprev, plast]) →
      respCursor pprev = some c →
      (front ++ [pprev, plast]).length ≤ fuel →
      searchEngagementsLoop transport none fuel start config acc =
        (start + (front ++ [pprev, plast]).length,
          GoOutcome.ok
            (acc ++ ((front ++ [pprev, plast]).map (fun r => r.results)).flatten,
              { config with after := some c })) := by
  induction front with
  | nil =>
    intro pprev plast c fuel start config acc hrun hcurv hfuel
    match fuel, hfuel with
    | f + 1, hfuel =>
      match f, hfuel with
      | f2 + 1, _ =>
        obtain ⟨hok, hcur, hok2, hcur2⟩ := hrun
        obtain ⟨pg, hp, hpe, hpc⟩ :
            ∃ pg, pprev.paging = some pg ∧ ¬ pg.next.after = "" ∧
              pg.next.after = c := by
          cases hp : pprev.paging with
          | none => simp [respCursor, hp] at hcurv
          | some pg =>
            by_cases hpe : pg.next.after = ""
            · simp [respCursor, hp, hpe] at hcurv
            · simp only [respCursor, hp, hpe, if_neg] at hcurv
              exact ⟨pg, rfl, hpe, by simpa using hcurv⟩
        have hstep :
            searchEngagementsLoop transport none (f2 + 2) start config acc =
              searchEngagementsLoop transport none (f2 + 1) (start + 1)
                { config with after := some pg.next.after }
                (acc ++ pprev.results) := by
          simp [searchEngagementsLoop, hok, hp, hpe]
        rw [hstep]
        cases hp2 : plast.paging with
        | none =>
          simp [searchEngagementsLoop, hok2, hp2, hpc, List.append_assoc]
        | some pg2 =>
          have hempty : pg2.next.after = "" := by
            by_contra hx
            simp [respCursor, hp2, hx] at hcur2
          simp [searchEngagementsLoop, hok2, hp2, hempty, hpc,
            List.append_assoc]
  | cons p front' ih =>
    intro pprev plast c fuel start config acc hrun hcurv hfuel
    match fuel, hfuel with
    | f + 1, hfuel =>
      have hrun' :
          transport start = Except.ok p ∧ respCursor p ≠ none ∧
            engagementsServerRun transport (start + 1)
              (front' ++ [pprev, plast]) := by
        cases front' with
        | nil => exact hrun
        | cons r front2 => exact hrun
      obtain ⟨hok, hcur, hrest⟩ := hrun'
      obtain ⟨pg, hp, hpe⟩ :
          ∃ pg, p.paging = some pg ∧ ¬ pg.next.after = "" := by
        cases hp : p.paging with
        | none => simp [respCursor, hp] at hcur
        | some pg =>
          by_cases hpe : pg.next.after = ""
          · simp [respCursor, hp, hpe] at hcur
          · exact ⟨pg, rfl, hpe⟩
      have hstep :
          searchEngagementsLoop transport none (f + 1) start config acc =
            searchEngagementsLoop transport none f (start + 1)
              { config with after := some pg.next.after }
              (acc ++ p.results) := by
        simp [searchEngagementsLoop, hok, hp, hpe]
      rw [hstep, ih pprev plast c f (start + 1)
        { config with after := some pg.next.after } (acc ++ p.results) hrest
        hcurv (by simpa using hfuel)]
      simp only [Prod.mk.injEq, List.length_cons, List.length_append,
        List.cons_append, List.map_cons, List.flatten_cons, List.append_assoc]
      exact ⟨by simp; omega, by simp⟩

/-- C9: when `SearchEngagements` is called without an explicit cursor and the
server makes it paginate (at least two loop pages), it returns with the
caller's config mutated: the `after` field — and only that field, as the
record-update conclusion shows — now holds the next-cursor `c` of the last
continuing page, so the config no longer describes a from-the-start search. -/
theorem c9_search_overwrites_config_after
    (transport : Nat → Except GoErr EngagementsResponse)
    (config : SearchObjectsConfig) (r0 pprev plast : EngagementsResponse)
    (front : List EngagementsResponse) (c : String) (fuel : Nat)
    (hafter : config.after = none) (hok0 : transport 0 = Except.ok r0)
    (hrun : engagementsServerRun transport 1 (front ++ [pprev, plast]))
    (hcurv : respCursor pprev = some c)
    (hfuel : (front ++ [pprev, plast]).length ≤ fuel) :
    searchEngagements transport (some config) fuel =
      ((front ++ [pprev, plast]).length + 1,
        GoOutcome.ok
          (((front ++ [pprev, plast]).map (fun r => r.results)).flatten,
            { config with after := some c })) := by
  have h := searchEngagementsLoop_run transport front pprev plast c fuel 1
    config [] hrun hcurv hfuel
  simp only [searchEngagements, hok0, hafter]
  rw [h]
  simp only [Prod.mk.injEq, List.nil_append]
  exact ⟨by omega, trivial⟩

/-- Witness for C9: the initial discarded request and the first loop page both
answer `pageOne` (cursor "c1"), the second loop page `pageTwo` stops; the
caller's config comes back with `after = some "c1"` instead of `none`. -/
theorem c9_search_overwrites_config_after_witness :
    searchEngagements (fun i => if i ≤ 1 then Except.ok pageOne else Except.ok pageTwo)
        (some { filterGroups := ["fg"], sorts := ["s"], query := some "q",
                properties := ["p"], limit := some 5, after := none }) 2 =
      (3, GoOutcome.ok
        ([sampleEngagement "1", sampleEngagement "2", sampleEngagement "3"],
          { filterGroups := ["fg"], sorts := ["s"], query := some "q",
            properties := ["p"], limit := some 5, after := some "c1" })) := by
  have h := c9_search_overwrites_config_after
    (fun i => if i ≤ 1 then Except.ok pageOne else Except.ok pageTwo)
    { filterGroups := ["fg"], sorts := ["s"], query := some "q",
      properties := ["p"], limit := some 5, after := none }
    pageOne pageOne pageTwo [] "c1" 2 rfl rfl
    (by refine ⟨rfl, ?_, rfl, ?_⟩ <;> simp [pageOne, pageTwo, respCursor])
    (by simp [pageOne, respCursor]) (by simp)
  simpa [pageOne, pageTwo] using h

/-- Every chunk body the `BatchArchive` loop submits has between 1 and 100
ids; `fuel` bounds the recursion as in the definition. -/
theorem batchArchive_chunk_sizes_aux (transport : Nat → Option GoErr) :
    ∀ (fuel : Nat) (ids : List String) (reqIdx : Nat), ids.length ≤ fuel →
      ∀ chunk ∈ (batchArchiveLoop transport fuel ids reqIdx).1,
        1 ≤ chunk.length ∧ chunk.length ≤ 100 := by
  intro fuel
  induction fuel with
  | zero =>
    intro ids reqIdx hlen chunk hmem
    have hnil : ids = [] := List.length_eq_zero.mp (Nat.le_zero.mp hlen)
    subst hnil
    simp [batchArchiveLoop] at hmem
  | succ m ih =>
    intro ids reqIdx hlen chunk hmem
    cases ids with
    | nil => simp [batchArchiveLoop] at hmem
    | cons hd tl =>
      cases htr : transport reqIdx with
      | some e =>
        simp only [batchArchiveLoop, htr, List.mem_singleton] at hmem
        subst hmem
        simp only [List.length_take, List.length_cons]
        omega
      | none =>
        simp only [batchArchiveLoop, htr, List.mem_cons] at hmem
        cases hmem with
        | inl h =>
          subst h
          simp only [List.length_take, List.length_cons]
          omega
        | inr h =>
          exact ih ((hd :: tl).drop 100) (reqIdx + 1)
            (by simp at hlen ⊢; omega) chunk h

/-- When every chunk request succeeds, the chunk bodies the `BatchArchive`
loop submits concatenate, in order, to exactly the input id list. -/
theorem batchArchive_chunks_cover_aux (transport : Nat → Option GoErr)
    (hok : ∀ i, transport i = none) :
    ∀ (fuel : Nat) (ids : List String) (reqIdx : Nat), ids.length ≤ fuel →
      (batchArchiveLoop transport fuel ids reqIdx).1.flatten = ids := by
  intro fuel
  induction fuel with
  | zero =>
    intro ids reqIdx hlen
    have hnil : ids = [] := List.length_eq_zero.mp (Nat.le_zero.mp hlen)
    subst hnil
    simp [batchArchiveLoop]
  | succ m ih =>
    intro ids reqIdx hlen
    cases ids with
    | nil => simp [batchArchiveLoop]
    | cons hd tl =>
      simp only [batchArchiveLoop, hok, List.flatten_cons]
      rw [ih ((hd :: tl).drop 100) (reqIdx + 1) (by simp at hlen ⊢; omega)]
      exact List.take_append_drop 100 (hd :: tl)

/-- The per-chunk results of a batch-read run, in request order:
`chunkResults sets start k` is the concatenation of the results the server
returns for requests `start … start+k-1`. -/
def chunkResults (sets : Nat → AssociationsV4Set) : Nat → Nat → List AssociationV4
  | _, 0 => []
  | start, k + 1 => (sets start).results ++ chunkResults sets (start + 1) k

/-- Chunk sizes of the `BatchGetAssociations` loop never exceed 10000. -/
theorem batchGetLoop_chunk_sizes_aux (transport : Nat → Except GoErr AssociationsV4Set) :
    ∀ (fuel : Nat) (ids : List String) (reqIdx : Nat) (acc : List AssociationV4),
      ids.length ≤ fuel →
      ∀ chunk ∈ (batchGetAssociationsLoop transport fuel ids reqIdx acc).1,
        1 ≤ chunk.length ∧ chunk.length ≤ 10000 := by
  intro fuel
  induction fuel with
  | zero =>
    intro ids reqIdx acc hlen chunk hmem
    have hnil : ids = [] := List.length_eq_zero.mp (Nat.le_zero.mp hlen)
    subst hnil
    simp [batchGetAssociationsLoop] at hmem
  | succ m ih =>
    intro ids reqIdx acc hlen chunk hmem
    cases ids with
    | nil => simp [batchGetAssociationsLoop] at hmem
    | cons hd tl =>
      cases htr : transport reqIdx with
      | error e =>
        simp only [batchGetAssociationsLoop, htr, List.mem_singleton] at hmem
        subst hmem
        simp only [List.length_take, List.length_cons]
        omega
      | ok set =>
        by_cases hgt : (hd :: tl).length > 10000
        · simp only [batchGetAssociationsLoop, htr, if_pos hgt,
            List.mem_cons] at hmem
          cases hmem with
          | inl h =>
            subst h
            simp only [List.length_take, List.length_cons]
            omega
          | inr h =>
            exact ih ((hd :: tl).drop 10000) (reqIdx + 1) _
              (by simp at hlen ⊢; omega) chunk h
        · simp only [batchGetAssociationsLoop, htr, if_neg hgt,
            List.mem_singleton] at hmem
          subst hmem
          simp only [List.length_cons, gt_iff_lt, not_lt] at hgt
          simp only [List.length_take, List.length_cons]
          omega

/-- On an all-success server the `BatchGetAssociations` loop covers the input
ids exactly and aggregates the per-chunk results in chunk order. -/
theorem batchGetLoop_run_aux (sets : Nat → AssociationsV4Set) :
    ∀ (fuel : Nat) (ids : List String) (reqIdx : Nat) (acc : List AssociationV4),
      ids.length ≤ fuel →
      (batchGetAssociationsLoop (fun i => Except.ok (sets i)) fuel ids reqIdx
          acc).1.flatten = ids ∧
      (batchGetAssociationsLoop (fun i => Except.ok (sets i)) fuel ids reqIdx
          acc).2 =
        GoOutcome.ok (acc ++ chunkResults sets reqIdx
          (batchGetAssociationsLoop (fun i => Except.ok (sets i)) fuel ids
            reqIdx acc).1.length) := by
  intro fuel
  induction fuel with
  | zero =>
    intro ids reqIdx acc hlen
    have hnil : ids = [] := List.length_eq_zero.mp (Nat.le_zero.mp hlen)
    subst hnil
    simp [batchGetAssociationsLoop, chunkResults]
  | succ m ih =>
    intro ids reqIdx acc hlen
    cases ids with
    | nil => simp [batchGetAssociationsLoop, chunkResults]
    | cons hd tl =>
      by_cases hgt : (hd :: tl).length > 10000
      · obtain ⟨ihcover, ihres⟩ := ih ((hd :: tl).drop 10000) (reqIdx + 1)
          (acc ++ (sets reqIdx).results) (by simp at hlen ⊢; omega)
        have hstep :
            batchGetAssociationsLoop (fun i => Except.ok (sets i)) (m + 1)
                (hd :: tl) reqIdx acc =
              ((hd :: tl).take 10000 ::
                  (batchGetAssociationsLoop (fun i => Except.ok (sets i)) m
                    ((hd :: tl).drop 10000) (reqIdx + 1)
                    (acc ++ (sets reqIdx).results)).1,
                (batchGetAssociationsLoop (fun i => Except.ok (sets i)) m
                  ((hd :: tl).drop 10000) (reqIdx + 1)
                  (acc ++ (sets reqIdx).results)).2) := by
          rw [batchGetAssociationsLoop]
          simp only [if_pos hgt]
        constructor
        · rw [hstep]
          simp only [List.flatten_cons]
          rw [ihcover]
          exact List.take_append_drop 10000 (hd :: tl)
        · rw [hstep]
          simp only [List.length_cons]
          rw [ihres]
          simp [chunkResults, List.append_assoc]
      · have hstep :
            batchGetAssociationsLoop (fun i => Except.ok (sets i)) (m + 1)
                (hd :: tl) reqIdx acc =
              ([(hd :: tl).take 10000],
                GoOutcome.ok (acc ++ (sets reqIdx).results)) := by
          rw [batchGetAssociationsLoop]
          simp only [if_neg hgt]
        constructor
        · rw [hstep]
          have hle : (hd :: tl).length ≤ 10000 := by
            simp at hgt ⊢
            omega
          simp [List.take_of_length_le hle]
        · rw [hstep]
          simp [chunkResults]

/-- C3: for every batch submission, `BatchArchiveEngagements` (max 100) and
`BatchGetAssociations` (max 10000) split the input into contiguous chunks of
at most the maximum, one request per chunk in input order (the chunk bodies
concatenate to the input), aggregated results preserve chunk order, and 250
archive ids produce exactly 3 requests of sizes 100, 100, 50. -/
theorem c3_batch_chunking :
    (∀ (transport : Nat → Option GoErr) (ids : List String) (reqIdx : Nat),
      ∀ chunk ∈ (batchArchiveEngagements transport ids reqIdx).1,
        chunk.length ≤ 100) ∧
    (∀ (transport : Nat → Option GoErr) (ids : List String) (reqIdx : Nat),
      (∀ i, transport i = none) →
      (batchArchiveEngagements transport ids reqIdx).1.flatten = ids) ∧
    (∀ (transport : Nat → Except GoErr AssociationsV4Set)
        (config : BatchGetAssociationsConfig),
      ∀ chunk ∈ (batchGetAssociations transport config).1,
        chunk.length ≤ 10000) ∧
    (∀ (sets : Nat → AssociationsV4Set) (config : BatchGetAssociationsConfig),
      ¬ config.ids = [] →
      (batchGetAssociations (fun i => Except.ok (sets i)) config).1.flatten =
          config.ids ∧
        (batchGetAssociations (fun i => Except.ok (sets i)) config).2 =
          GoOutcome.ok (some (AssociationsV4Set.mk (chunkResults sets 0
            ((batchGetAssociations (fun i => Except.ok (sets i))
              config).1.length))))) ∧
    (batchArchiveEngagements (fun _ => none) (List.replicate 250 "e") 0).1.map
        (fun chunk => chunk.length) = [100, 100, 50] := by
  refine ⟨?_, ?_, ?_, ?_, ?_⟩
  · intro transport ids reqIdx chunk hmem
    exact (batchArchive_chunk_sizes_aux transport ids.length ids reqIdx
      le_rfl chunk hmem).2
  · intro transport ids reqIdx hok
    exact batchArchive_chunks_cover_aux transport hok ids.length ids reqIdx
      le_rfl
  · intro transport config chunk hmem
    by_cases hnil : config.ids.length = 0
    · simp [batchGetAssociations, hnil] at hmem
    · simp only [batchGetAssociations, if_neg hnil] at hmem
      exact (batchGetLoop_chunk_sizes_aux transport config.ids.length
        config.ids 0 [] le_rfl chunk hmem).2
  · intro sets config hne
    have hnil : ¬ config.ids.length = 0 := by
      intro h
      exact hne (List.length_eq_zero.mp h)
    obtain ⟨hcover, hres⟩ := batchGetLoop_run_aux sets config.ids.length
      config.ids 0 [] le_rfl
    constructor
    · simp only [batchGetAssociations, if_neg hnil]
      exact hcover
    · simp only [batchGetAssociations, if_neg hnil]
      rw [hres]
      simp
  · rfl

/-- Witness for C3 at concrete inputs: the 250-id archive run, a submitted
chunk whose size the size bound is instantiated on, an all-success cover run,
and a nonempty batch-read cover run. -/
theorem c3_batch_chunking_witness :
    ((batchArchiveEngagements (fun _ => none) (List.replicate 250 "e") 0).1.map
        (fun chunk => chunk.length) = [100, 100, 50]) ∧
    ((["k1", "k2"] : List String) ∈
        (batchArchiveEngagements (fun _ => none) ["k1", "k2"] 0).1 ∧
      (["k1", "k2"] : List String).length ≤ 100) ∧
    ((batchArchiveEngagements (fun _ => none) ["a", "b"] 0).1.flatten =
      ["a", "b"]) ∧
    ((batchGetAssociations (fun _ => Except.ok { results := [] })
        { fromObjectType := "contact", toObjectType := "company",
          ids := ["x", "y"] }).1.flatten = ["x", "y"]) := by
  have hmem : (["k1", "k2"] : List String) ∈
      (batchArchiveEngagements (fun _ => none) ["k1", "k2"] 0).1 := by
    decide
  refine ⟨c3_batch_chunking.2.2.2.2,
    ⟨hmem, c3_batch_chunking.1 (fun _ => none) ["k1", "k2"] 0 _ hmem⟩, ?_, ?_⟩
  · exact c3_batch_chunking.2.1 (fun _ => none) ["a", "b"] 0 (fun _ => rfl)
  · exact (c3_batch_chunking.2.2.2.1 (fun _ => { results := [] })
      { fromObjectType := "contact", toObjectType := "company",
        ids := ["x", "y"] } (by simp)).1

/-- Per-chunk successful results of a batch create/update run, in request
order: for requests `start … start+k-1`, the concatenation of the reply
bodies' `Results`. -/
def chunkEngResults (bodies : Nat → BatchEngagementsResponse) :
    Nat → Nat → List Engagement
  | _, 0 => []
  | start, k + 1 => (bodies start).results ++ chunkEngResults bodies (start + 1) k

/-- Per-chunk error lists printed during a batch create/update run of `k`
multi-status chunks starting at request `start`. -/
def chunkErrorLists (bodies : Nat → BatchEngagementsResponse) :
    Nat → Nat → List (List BatchItemError)
  | _, 0 => []
  | start, k + 1 => (bodies start).errors :: chunkErrorLists bodies (start + 1) k

/-- If every chunk reply carries HTTP 207, the create loop completes all
chunks: one request per chunk, all successful results aggregated in chunk
order, all per-item error lists printed. -/
theorem batchCreateLoop_all207 (transport : Nat → ChunkReply)
    (h207 : ∀ i, (transport i).statusCode = some 207) :
    ∀ (bs : List (Nat × Nat)) (reqIdx : Nat) (acc : List Engagement)
      (diags : List (List BatchItemError)),
      batchCreateEngagementsLoop transport bs reqIdx acc diags =
        (reqIdx + bs.length,
          GoOutcome.ok (acc ++ chunkEngResults (fun i => (transport i).body)
            reqIdx bs.length),
          diags ++ chunkErrorLists (fun i => (transport i).body) reqIdx
            bs.length) := by
  intro bs
  induction bs with
  | nil =>
    intro reqIdx acc diags
    simp [batchCreateEngagementsLoop, chunkEngResults, chunkErrorLists]
  | cons b rest ih =>
    intro reqIdx acc diags
    simp only [batchCreateEngagementsLoop, h207, if_pos]
    rw [ih (reqIdx + 1) (acc ++ (transport reqIdx).body.results)
      (diags ++ [(transport reqIdx).body.errors])]
    simp only [Prod.mk.injEq, List.length_cons]
    refine ⟨by omega, ?_, ?_⟩
    · simp [chunkEngResults, List.append_assoc]
    · simp [chunkErrorLists]

/-- C4: a chunk whose reply has HTTP status 207 Multi-Status does not abort a
batch create or update run: the `goto ok` path appends the chunk's
successful results to the aggregate, records its per-item errors only as
printed diagnostics, and processing continues with the next chunk (first two
conjuncts); when every chunk replies 207 — even with non-nil transport
errors — the whole operation still returns success with all chunks'
results (third conjunct). -/
theorem c4_multistatus_chunk_continues :
    (∀ (transport : Nat → ChunkReply) (b : Nat × Nat)
        (rest : List (Nat × Nat)) (reqIdx : Nat) (acc : List Engagement)
        (diags : List (List BatchItemError)),
      (transport reqIdx).statusCode = some 207 →
      batchCreateEngagementsLoop transport (b :: rest) reqIdx acc diags =
        batchCreateEngagementsLoop transport rest (reqIdx + 1)
          (acc ++ (transport reqIdx).body.results)
          (diags ++ [(transport reqIdx).body.errors])) ∧
    (∀ (transport : Nat → ChunkReply) (b : Nat × Nat)
        (rest : List (Nat × Nat)) (reqIdx : Nat) (acc : List Engagement)
        (diags : List (List BatchItemError)),
      (transport reqIdx).statusCode = some 207 →
      batchUpdateEngagementsLoop transport (b :: rest) reqIdx acc diags =
        batchUpdateEngagementsLoop transport rest (reqIdx + 1)
          (acc ++ (transport reqIdx).body.results)
          (diags ++ [(transport reqIdx).body.errors])) ∧
    (∀ (transport : Nat → ChunkReply) (maxPerBatch : Nat)
        (config : BatchObjectsConfig),
      (∀ i, (transport i).statusCode = some 207) →
      batchCreateEngagements transport maxPerBatch config =
        ((batches maxPerBatch config.inputs.length).length,
          GoOutcome.ok (chunkEngResults (fun i => (transport i).body) 0
            (batches maxPerBatch config.inputs.length).length),
          chunkErrorLists (fun i => (transport i).body) 0
            (batches maxPerBatch config.inputs.length).length)) := by
  refine ⟨?_, ?_, ?_⟩
  · intro transport b rest reqIdx acc diags h
    simp [batchCreateEngagementsLoop, h]
  · intro transport b rest reqIdx acc diags h
    simp [batchUpdateEngagementsLoop, h]
  · intro transport maxPerBatch config h207
    have h := batchCreateLoop_all207 transport h207
      (batches maxPerBatch config.inputs.length) 0 [] []
    simpa [batchCreateEngagements] using h

/-- C8: a chunk whose reply is NOT 207 and carries a transport error aborts
the whole batch operation at that chunk: only `reqIdx + 1` requests have been
issued (the remaining chunks are never submitted) and the error is returned
without the results accumulated so far — for the create and update loops, the
archive loop, and the association batch-read loop. -/
theorem c8_transport_error_aborts_batch :
    (∀ (transport : Nat → ChunkReply) (e : GoErr) (b : Nat × Nat)
        (rest : List (Nat × Nat)) (reqIdx : Nat) (acc : List Engagement)
        (diags : List (List BatchItemError)),
      ¬ (transport reqIdx).statusCode = some 207 →
      (transport reqIdx).err = some e →
      batchCreateEngagementsLoop transport (b :: rest) reqIdx acc diags =
        (reqIdx + 1, GoOutcome.err e, diags)) ∧
    (∀ (transport : Nat → ChunkReply) (e : GoErr) (b : Nat × Nat)
        (rest : List (Nat × Nat)) (reqIdx : Nat) (acc : List Engagement)
        (diags : List (List BatchItemError)),
      ¬ (transport reqIdx).statusCode = some 207 →
      (transport reqIdx).err = some e →
      batchUpdateEngagementsLoop transport (b :: rest) reqIdx acc diags =
        (reqIdx + 1, GoOutcome.err e, diags)) ∧
    (∀ (transport : Nat → Option GoErr) (e : GoErr) (fuel : Nat) (hd : String)
        (tl : List String) (reqIdx : Nat),
      transport reqIdx = some e →
      batchArchiveLoop transport (fuel + 1) (hd :: tl) reqIdx =
        ([(hd :: tl).take 100], some e)) ∧
    (∀ (transport : Nat → Except GoErr AssociationsV4Set) (e : GoErr)
        (fuel : Nat) (hd : String) (tl : List String) (reqIdx : Nat)
        (acc : List AssociationV4),
      transport reqIdx = Except.error e →
      batchGetAssociationsLoop transport (fuel + 1) (hd :: tl) reqIdx acc =
        ([(hd :: tl).take 10000], GoOutcome.err e)) := by
  refine ⟨?_, ?_, ?_, ?_⟩
  · intro transport e b rest reqIdx acc diags h207 herr
    simp [batchCreateEngagementsLoop, h207, herr]
  · intro transport e b rest reqIdx acc diags h207 herr
    simp [batchUpdateEngagementsLoop, h207, herr]
  · intro transport e fuel hd tl reqIdx herr
    simp [batchArchiveLoop, herr]
  · intro transport e fuel hd tl reqIdx acc herr
    simp [batchGetAssociationsLoop, herr]

/-- A concrete per-item batch error. -/
def sampleItemError : BatchItemError :=
  { subCategory := "", context := [], links := [], id := "x",
    category := "VALIDATION_ERROR", message := "bad property", errors := [],
    status := "error" }

/-- A concrete chunk reply with HTTP 207, one successful result, one per-item
error, and a non-nil transport error (as `go_http` produces for non-2xx). -/
def multiStatusReply : ChunkReply :=
  { body := { completedAt := none, numErrors := 1, requestedAt := none,
              startedAt := none, links := [], results := [sampleEngagement "b1"],
              errors := [sampleItemError], status := "COMPLETE" },
    statusCode := some 207, err := some { message := "207 multi-status" } }

/-- A concrete chunk reply: plain failure, no raw response. -/
def failedReply : ChunkReply :=
  { body := { completedAt := none, numErrors := 0, requestedAt := none,
              startedAt := none, links := [], results := [], errors := [],
              status := "" },
    statusCode := none, err := some { message := "boom" } }

/-- A concrete batch config with three inputs. -/
def threeInputConfig : BatchObjectsConfig :=
  { objectType := "note",
    inputs := [{ id := some "i1", properties := [("a", "1")] },
               { id := some "i2", properties := [] },
               { id := some "i3", properties := [] }] }

/-- Witness for C4: with batch size 2 and three inputs, two all-207 chunks
both contribute their results and error lists and the operation succeeds;
the single-step forms are instantiated on the same transport. -/
theorem c4_multistatus_chunk_continues_witness :
    batchCreateEngagements (fun _ => multiStatusReply) 2 threeInputConfig =
      (2, GoOutcome.ok [sampleEngagement "b1", sampleEngagement "b1"],
        [[sampleItemError], [sampleItemError]]) ∧
    batchCreateEngagementsLoop (fun _ => multiStatusReply) [(0, 2), (2, 3)] 0
        [] [] =
      batchCreateEngagementsLoop (fun _ => multiStatusReply) [(2, 3)] 1
        [sampleEngagement "b1"] [[sampleItemError]] ∧
    batchUpdateEngagementsLoop (fun _ => multiStatusReply) [(0, 2), (2, 3)] 0
        [] [] =
      batchUpdateEngagementsLoop (fun _ => multiStatusReply) [(2, 3)] 1
        [sampleEngagement "b1"] [[sampleItemError]] := by
  refine ⟨?_, ?_, ?_⟩
  · exact (c4_multistatus_chunk_continues.2.2 (fun _ => multiStatusReply) 2
      threeInputConfig (fun _ => rfl)).trans (by rfl)
  · exact (c4_multistatus_chunk_continues.1 (fun _ => multiStatusReply)
      (0, 2) [(2, 3)] 0 [] [] rfl).trans (by rfl)
  · exact (c4_multistatus_chunk_continues.2.1 (fun _ => multiStatusReply)
      (0, 2) [(2, 3)] 0 [] [] rfl).trans (by rfl)

/-- Witness for C8: a failing chunk aborts each batch operation with the
error, one request past the accumulated prefix, no partial results. -/
theorem c8_transport_error_aborts_batch_witness :
    batchCreateEngagementsLoop (fun _ => failedReply) [(0, 2), (2, 3)] 0
        [sampleEngagement "b1"] [] =
      (1, GoOutcome.err { message := "boom" }, []) ∧
    batchUpdateEngagementsLoop (fun _ => failedReply) [(0, 2), (2, 3)] 0
        [sampleEngagement "b1"] [] =
      (1, GoOutcome.err { message := "boom" }, []) ∧
    batchArchiveLoop (fun _ => some { message := "boom" }) 2 ["a", "b"] 0 =
      ([["a", "b"]], some { message := "boom" }) ∧
    batchGetAssociationsLoop (fun _ => Except.error { message := "boom" }) 2
        ["a", "b"] 0 [{ fromId := "f", toList := [] }] =
      ([["a", "b"]], GoOutcome.err { message := "boom" }) := by
  refine ⟨?_, ?_, ?_, ?_⟩
  · exact c8_transport_error_aborts_batch.1 (fun _ => failedReply)
      { message := "boom" } (0, 2) [(2, 3)] 0 [sampleEngagement "b1"] []
      (by decide) rfl
  · exact c8_transport_error_aborts_batch.2.1 (fun _ => failedReply)
      { message := "boom" } (0, 2) [(2, 3)] 0 [sampleEngagement "b1"] []
      (by decide) rfl
  · exact (c8_transport_error_aborts_batch.2.2.1
      (fun _ => some { message := "boom" }) { message := "boom" } 1 "a" ["b"]
      0 rfl).trans (by rfl)
  · exact (c8_transport_error_aborts_batch.2.2.2
      (fun _ => Except.error { message := "boom" }) { message := "boom" } 1
      "a" ["b"] 0 [{ fromId := "f", toList := [] }] rfl).trans (by rfl)

/-- Go map assignment only touches the assigned key: looking up `k2` after
`m[k] = v` yields `v` when `k2 = k` and the old binding otherwise. -/
theorem lookup_mapInsert (m : List (String × String)) (k v k2 : String) :
    (mapInsert m k v).lookup k2 = if k2 = k then some v else m.lookup k2 := by
  induction m with
  | nil =>
    by_cases h : k2 = k
    · simp [mapInsert, List.lookup, h]
    · simp [mapInsert, List.lookup, h, beq_eq_false_iff_ne.mpr h]
  | cons hdp tl ih =>
    obtain ⟨k0, v0⟩ := hdp
    by_cases h0 : k0 = k
    · subst h0
      by_cases h2 : k2 = k0
      · subst h2
        simp [mapInsert, List.lookup]
      · simp [mapInsert, List.lookup, beq_eq_false_iff_ne.mpr h2, h2]
    · by_cases h2 : k2 = k0
      · subst h2
        simp [mapInsert, h0, List.lookup, Ne.symm h0]
      · simp [mapInsert, h0, List.lookup, beq_eq_false_iff_ne.mpr h2, h2, ih]

/-- A key that is not among an association list's keys looks up to `none`. -/
theorem lookup_eq_none_of_not_mem_keys (k : String) :
    ∀ (l : List (String × String)), ¬ k ∈ l.map Prod.fst → l.lookup k = none := by
  intro l
  induction l with
  | nil => intro _; rfl
  | cons hdp tl ih =>
    intro hk
    obtain ⟨k0, v0⟩ := hdp
    simp only [List.map_cons, List.mem_cons, not_or] at hk
    obtain ⟨hne, htl⟩ := hk
    simp only [List.lookup, beq_eq_false_iff_ne.mpr hne]
    exact ih htl

/-- Copying a duplicate-free association list into an accumulator Go map (the
lines 167-173 loop of `UpdateEngagement`) yields the entry from the copied
list when present and the accumulator's entry otherwise. -/
theorem lookup_copy_foldl (props : List (String × String)) :
    ∀ (start : List (String × String)) (k : String),
      (props.map Prod.fst).Nodup →
      (props.foldl (fun m kv => mapInsert m kv.1 kv.2) start).lookup k =
        ((props.lookup k).orElse (fun _ => start.lookup k)) := by
  induction props with
  | nil => intro start k _; simp [List.lookup]
  | cons hdp tl ih =>
    intro start k hnodup
    obtain ⟨k0, v0⟩ := hdp
    simp only [List.map_cons, List.nodup_cons] at hnodup
    obtain ⟨hk0, htl⟩ := hnodup
    simp only [List.foldl_cons]
    rw [ih (mapInsert start k0 v0) k htl]
    by_cases h : k = k0
    · subst h
      have hnone : tl.lookup k = none :=
        lookup_eq_none_of_not_mem_keys k tl (by simpa using hk0)
      simp [List.lookup, hnone, lookup_mapInsert]
    · simp [List.lookup, beq_eq_false_iff_ne.mpr h, h, lookup_mapInsert]

/-- C6: the `properties` mapping of the body `UpdateEngagement` serializes
contains exactly the explicitly supplied entries of `config.Properties` (a Go
map, so its keys are distinct): every key looks up to the same value in the
body as in the config, and any key not mentioned in the config is absent
from the body (`none`) — never sent as null or cleared. -/
theorem c6_update_body_exact_properties (config : UpdateEngagementConfig)
    (k : String) (hnodup : (config.properties.map Prod.fst).Nodup) :
    (updateEngagementBody config).properties.lookup k =
      config.properties.lookup k := by
  unfold updateEngagementBody
  rw [lookup_copy_foldl config.properties [] k hnodup]
  cases config.properties.lookup k with
  | none => rfl
  | some v => rfl

/-- A concrete update config with two distinct property keys. -/
def noteUpdateConfig : UpdateEngagementConfig :=
  { type := "note", engagementId := "42",
    properties := [("hs_note_body", "hello"), ("hs_timestamp", "t")] }

/-- Witness for C6: the two-entry property map is copied verbatim (key
"hs_note_body" present with its value, key "unrelated" absent). -/
theorem c6_update_body_exact_properties_witness :
    (updateEngagementBody noteUpdateConfig).properties.lookup "hs_note_body" =
      some "hello" ∧
    (updateEngagementBody noteUpdateConfig).properties.lookup "unrelated" =
      none := by
  constructor
  · exact (c6_update_body_exact_properties noteUpdateConfig "hs_note_body"
      (by decide)).trans (by decide)
  · exact (c6_update_body_exact_properties noteUpdateConfig "unrelated"
      (by decide)).trans (by decide)

end GoHubspot
